import Mathlib

/-!
Verification development for the donation-screenshot ingestion pipeline in
`src/master.go` (Go package `trimark`).  The pure logic of the program --
regex-based field extraction, checksum computation, row-range parsing, image
cropping geometry, and the per-file orchestration in `Main` -- is shallowly
embedded below; external collaborators (Drive/Sheets API transport, OCR
export, the wall clock) are passed in as explicit inputs.
-/

set_option maxRecDepth 100000

namespace Trimark

/-!
## Regular expressions

`extractData` and `appendDataToSheet` (master.go lines 326-363 and 375-394)
are driven by five pattern strings (lines 67-72) fed to Go's `regexp`
package.  Go's `regexp.FindStringSubmatch` uses leftmost-first (Perl-style
backtracking-order) match semantics.  We embed exactly the constructs those
five patterns use: literal characters, case-insensitive literal characters
(the `(?i)` flag of the quantity patterns), `.` (which does not match a
newline: no pattern containing `.` carries the `(?s)` flag), character
classes, greedy and lazy star, one capturing group per pattern, and the
end-of-text anchor `$` (no `(?m)` flag on `rowRegex`, so `$` is end of
text).  The engine below returns the full candidate list in backtracking
priority order; the head of the list at the leftmost matching position is
exactly Go's submatch result.
-/

inductive RE where
  | eps
  | ch (c : Char)
  | chI (c : Char)
  | dot
  | cls (cs : List Char)
  | seq (a b : RE)
  | star (a : RE)
  | starL (a : RE)
  | grp (a : RE)
  | eol
  deriving Repr, DecidableEq

/-- A match candidate: consumed characters, capture of the (single) group,
and the remaining input after the consumed part. -/
abbrev Cand := List Char × Option (List Char) × List Char

/-- Capture of a sequential composition: the patterns here contain exactly
one capturing group, so at most one side is `some`. -/
def mergeCap (a b : Option (List Char)) : Option (List Char) :=
  a.orElse (fun _ => b)

/-- ASCII case-insensitive character comparison (the `(?i)` flag; all inputs
relevant here are ASCII). -/
def charIEq (x c : Char) : Bool := x.toLower == c.toLower

/-- Backtracking regex engine: all match candidates of `r` against a prefix
of `s`, in backtracking priority order (greedy star: longest continuation
first; lazy star: empty first).  `fuel` bounds star unrolling; each
unrolling consumes at least one character, so `s.length + 1` fuel is always
enough. -/
def runRE : (fuel : Nat) → (r : RE) → (s : List Char) → List Cand
  | 0, _, _ => []
  | _ + 1, .eps, s => [([], none, s)]
  | _ + 1, .ch _, [] => []
  | _ + 1, .ch c, x :: rest => if x = c then [([x], none, rest)] else []
  | _ + 1, .chI _, [] => []
  | _ + 1, .chI c, x :: rest => if charIEq x c then [([x], none, rest)] else []
  | _ + 1, .dot, [] => []
  | _ + 1, .dot, x :: rest => if x = '\n' then [] else [([x], none, rest)]
  | _ + 1, .cls _, [] => []
  | _ + 1, .cls cs, x :: rest => if x ∈ cs then [([x], none, rest)] else []
  | fuel + 1, .seq a b, s =>
    (runRE fuel a s).flatMap (fun uc =>
      (runRE fuel b uc.2.2).map (fun vc =>
        (uc.1 ++ vc.1, mergeCap uc.2.1 vc.2.1, vc.2.2)))
  | fuel + 1, .star a, s =>
    (((runRE fuel a s).filter (fun uc => !uc.1.isEmpty)).flatMap (fun uc =>
      (runRE fuel (.star a) uc.2.2).map (fun vc =>
        (uc.1 ++ vc.1, mergeCap uc.2.1 vc.2.1, vc.2.2)))) ++ [([], none, s)]
  | fuel + 1, .starL a, s =>
    [([], none, s)] ++
    ((runRE fuel a s).filter (fun uc => !uc.1.isEmpty)).flatMap (fun uc =>
      (runRE fuel (.starL a) uc.2.2).map (fun vc =>
        (uc.1 ++ vc.1, mergeCap uc.2.1 vc.2.1, vc.2.2)))
  | fuel + 1, .grp a, s => (runRE fuel a s).map (fun uc => (uc.1, some uc.1, uc.2.2))
  | _ + 1, .eol, [] => [([], none, [])]
  | _ + 1, .eol, _ :: _ => []

/-- Number of nodes of a regex tree. -/
def RE.size : RE → Nat
  | .eps => 1
  | .ch _ => 1
  | .chI _ => 1
  | .dot => 1
  | .cls _ => 1
  | .eol => 1
  | .seq a b => a.size + b.size + 1
  | .star a => a.size + 1
  | .starL a => a.size + 1
  | .grp a => a.size + 1

/-- Fuel that is always sufficient: the recursion depth of a backtracking
search is at most one regex-tree descent (bounded by `r.size`) per consumed
character, each star unrolling consuming at least one character. -/
def reFuel (r : RE) (s : List Char) : Nat := (r.size + 1) * (s.length + 2)

/-- Highest-priority match of `r` at the very start of `s`. -/
def firstMatch (r : RE) (s : List Char) : Option Cand :=
  match runRE (reFuel r s) r s with
  | [] => none
  | c :: _ => some c

/-- Leftmost match: scan start positions left to right (Go's leftmost-first
find).  Returns `(skipped, consumed, capture, rest)`. -/
def scanRE (r : RE) : (s : List Char) → Option (List Char × List Char × Option (List Char) × List Char)
  | [] =>
    match firstMatch r [] with
    | some (u, c, rest) => some ([], u, c, rest)
    | none => none
  | x :: s' =>
    match firstMatch r (x :: s') with
    | some (u, c, rest) => some ([], u, c, rest)
    | none => (scanRE r s').map (fun pr => (x :: pr.1, pr.2.1, pr.2.2.1, pr.2.2.2))

/-- Embedding of Go `regexp.FindStringSubmatch` for a one-group pattern:
`some (full match, group capture)` on success, `none` when there is no
match (Go returns `nil`, making the caller's `len(results) != 2` check
fire). -/
def findStringSubmatch (r : RE) (s : String) : Option (String × String) :=
  (scanRE r s.data).map (fun pr => (String.mk pr.2.1, String.mk ((pr.2.2.1).getD [])))

/-- Literal string (sequence of exact characters). -/
def litRE (s : String) : RE := s.data.foldr (fun c r => RE.seq (.ch c) r) .eps

/-- Case-insensitive literal string (under the `(?i)` flag). -/
def litIRE (s : String) : RE := s.data.foldr (fun c r => RE.seq (.chI c) r) .eps

def digitChars : List Char := "0123456789".data

/-- `\d` -/
def digitRE : RE := .cls digitChars

def upperChars : List Char := "ABCDEFGHIJKLMNOPQRSTUVWXYZ".data

def quantityChars : List Char := "0123456789,".data

def seqRE (l : List RE) : RE := l.foldr .seq .eps

/-- Single-character atoms (literal characters and character classes). -/
def isAtomB : RE → Bool
  | .ch _ => true
  | .cls _ => true
  | _ => false

/-- What one atom says about the one character it consumes. -/
def unitB : RE → Char → Bool
  | .ch c0, x => x == c0
  | .cls cs, x => decide (x ∈ cs)
  | _, _ => true

/-- Pointwise check of a character list against an atom list. -/
def atomsMatch : List RE → List Char → Bool
  | [], [] => true
  | r :: rs, x :: xs => unitB r x && atomsMatch rs xs
  | _, _ => false

/-- The 19 atoms of the date pattern `\d{4}-\d{2}-\d{2} \d{2}:\d{2}:\d{2}`. -/
def dateAtoms : List RE :=
  [digitRE, digitRE, digitRE, digitRE, .ch '-', digitRE, digitRE, .ch '-',
   digitRE, digitRE, .ch ' ', digitRE, digitRE, .ch ':', digitRE, digitRE,
   .ch ':', digitRE, digitRE]

/-- master.go line 67: `(\d{4}-\d{2}-\d{2} \d{2}:\d{2}:\d{2})`. -/
def dateRegex : RE := .grp (seqRE dateAtoms)

/-- master.go line 68: `Member Donation.*[([](?P<Member>.*)[)\]]` (no flags:
case-sensitive, `.` does not match a newline). -/
def usernameRegex : RE :=
  .seq (litRE "Member Donation")
    (.seq (.star .dot)
      (.seq (.cls ['(', '['])
        (.seq (.grp (.star .dot)) (.cls [')', ']']))))

/-- master.go line 69: `(?ims)Member Donation\r\n(?P<quantity>[0-9,]*)`. -/
def quantityZeroRegex : RE :=
  .seq (litIRE "Member Donation")
    (.seq (.ch '\r') (.seq (.ch '\n') (.grp (.star (.cls quantityChars)))))

/-- master.go line 70: `(?ims)Type\r\n(?P<quantity>[0-9,]*)`. -/
def quantityFirstRegex : RE :=
  .seq (litIRE "Type")
    (.seq (.ch '\r') (.seq (.ch '\n') (.grp (.star (.cls quantityChars)))))

/-- master.go line 71: `(?ims)Quantity\r\n(?P<quantity>[0-9,]*)`. -/
def quantitySecondRegex : RE :=
  .seq (litIRE "Quantity")
    (.seq (.ch '\r') (.seq (.ch '\n') (.grp (.star (.cls quantityChars)))))

/-- master.go line 72: `.*:[A-Z](\d.*?)$` (no flags: `$` is end of text,
`.` does not match a newline). -/
def rowRegex : RE :=
  .seq (.star .dot)
    (.seq (.ch ':')
      (.seq (.cls upperChars)
        (.seq (.grp (.seq digitRE (.starL .dot))) .eol)))

/-!
## extractData (master.go lines 326-363)
-/

inductive ExtractErr where
  | dateNotFound
  | usernameNotFound
  | quantityNotFound
  deriving Repr, DecidableEq

/-- The quantity-pattern guard of master.go lines 350/353/357:
`len(quantityResults) != 2 || quantityResults[1] == ""` means "this pattern
failed, fall through"; a successful pattern yields its non-empty capture. -/
def capOrFail (res : Option (String × String)) : Option String :=
  match res with
  | none => none
  | some (_, cap) => if cap = "" then none else some cap

/-- `extractData` transcribed from master.go lines 326-363.  The
`io.ReadCloser` has already been read into `content` (lines 327-331; the
read-error path is transport, not logic).  On failure Go returns the zero
values `"", "", ""` together with the error, exactly as modelled here. -/
def extractData (content : String) : String × String × String × Option ExtractErr :=
  match findStringSubmatch dateRegex content with
  | none => ("", "", "", some .dateNotFound)
  | some (_, dateCap) =>
    match findStringSubmatch usernameRegex content with
    | none => ("", "", "", some .usernameNotFound)
    | some (_, userCap) =>
      match capOrFail (findStringSubmatch quantityZeroRegex content) with
      | some q => (dateCap, userCap, q, none)
      | none =>
        match capOrFail (findStringSubmatch quantityFirstRegex content) with
        | some q => (dateCap, userCap, q, none)
        | none =>
          match capOrFail (findStringSubmatch quantitySecondRegex content) with
          | some q => (dateCap, userCap, q, none)
          | none => ("", "", "", some .quantityNotFound)

/-!
## MD5 and hex encoding (Go `crypto/md5`, `encoding/hex`)

`appendDataToSheet` (master.go lines 375-394) computes
`md5.Sum([]byte(date + name + amount))` and hex-encodes the 16-byte digest.
`crypto/md5` implements RFC 1321; it is embedded here over `Nat` bytes and
32-bit words (`% 2^32` where overflow matters).
-/

/-- Bitwise complement on 32-bit words (`x < 2^32`). -/
def not32 (x : Nat) : Nat := 4294967295 - x

/-- 32-bit left rotation (`x < 2^32`, `0 < n < 32`). -/
def rotl32 (x n : Nat) : Nat := (x * 2 ^ n + x / 2 ^ (32 - n)) % 2 ^ 32

/-- RFC 1321 sine-derived round constants. -/
def md5K : List Nat :=
  [0xd76aa478, 0xe8c7b756, 0x242070db, 0xc1bdceee,
   0xf57c0faf, 0x4787c62a, 0xa8304613, 0xfd469501,
   0x698098d8, 0x8b44f7af, 0xffff5bb1, 0x895cd7be,
   0x6b901122, 0xfd987193, 0xa679438e, 0x49b40821,
   0xf61e2562, 0xc040b340, 0x265e5a51, 0xe9b6c7aa,
   0xd62f105d, 0x02441453, 0xd8a1e681, 0xe7d3fbc8,
   0x21e1cde6, 0xc33707d6, 0xf4d50d87, 0x455a14ed,
   0xa9e3e905, 0xfcefa3f8, 0x676f02d9, 0x8d2a4c8a,
   0xfffa3942, 0x8771f681, 0x6d9d6122, 0xfde5380c,
   0xa4beea44, 0x4bdecfa9, 0xf6bb4b60, 0xbebfbc70,
   0x289b7ec6, 0xeaa127fa, 0xd4ef3085, 0x04881d05,
   0xd9d4d039, 0xe6db99e5, 0x1fa27cf8, 0xc4ac5665,
   0xf4292244, 0x432aff97, 0xab9423a7, 0xfc93a039,
   0x655b59c3, 0x8f0ccc92, 0xffeff47d, 0x85845dd1,
   0x6fa87e4f, 0xfe2ce6e0, 0xa3014314, 0x4e0811a1,
   0xf7537e82, 0xbd3af235, 0x2ad7d2bb, 0xeb86d391]

/-- RFC 1321 per-round left-rotation amounts. -/
def md5S : List Nat :=
  [7, 12, 17, 22, 7, 12, 17, 22, 7, 12, 17, 22, 7, 12, 17, 22,
   5, 9, 14, 20, 5, 9, 14, 20, 5, 9, 14, 20, 5, 9, 14, 20,
   4, 11, 16, 23, 4, 11, 16, 23, 4, 11, 16, 23, 4, 11, 16, 23,
   6, 10, 15, 21, 6, 10, 15, 21, 6, 10, 15, 21, 6, 10, 15, 21]

/-- Four little-endian bytes of a 32-bit word. -/
def le32 (x : Nat) : List Nat := [x % 256, x / 256 % 256, x / 65536 % 256, x / 16777216 % 256]

/-- Eight little-endian bytes of a 64-bit quantity. -/
def le64 (x : Nat) : List Nat := (List.range 8).map (fun i => x / 256 ^ i % 256)

/-- The sixteen little-endian 32-bit words of a 64-byte block. -/
def chunkWords (block : List Nat) : List Nat :=
  (List.range 16).map (fun j =>
    block.getD (4 * j) 0 + 256 * block.getD (4 * j + 1) 0 +
    65536 * block.getD (4 * j + 2) 0 + 16777216 * block.getD (4 * j + 3) 0)

/-- One MD5 round (round index `i`, message words `m`). -/
def md5Round (m : List Nat) (st : Nat × Nat × Nat × Nat) (i : Nat) : Nat × Nat × Nat × Nat :=
  let a := st.1
  let b := st.2.1
  let c := st.2.2.1
  let d := st.2.2.2
  let fg : Nat × Nat :=
    if i < 16 then ((b &&& c) ||| (not32 b &&& d), i)
    else if i < 32 then ((d &&& b) ||| (not32 d &&& c), (5 * i + 1) % 16)
    else if i < 48 then (b ^^^ c ^^^ d, (3 * i + 5) % 16)
    else (c ^^^ (b ||| not32 d), 7 * i % 16)
  let f := (fg.1 + a + md5K.getD i 0 + m.getD fg.2 0) % 2 ^ 32
  (d, (b + rotl32 f (md5S.getD i 0)) % 2 ^ 32, b, c)

/-- MD5 compression of one 64-byte block. -/
def md5Block (st : Nat × Nat × Nat × Nat) (block : List Nat) : Nat × Nat × Nat × Nat :=
  let m := chunkWords block
  let r := (List.range 64).foldl (md5Round m) st
  ((st.1 + r.1) % 2 ^ 32, (st.2.1 + r.2.1) % 2 ^ 32,
   (st.2.2.1 + r.2.2.1) % 2 ^ 32, (st.2.2.2 + r.2.2.2) % 2 ^ 32)

/-- Split a byte list into 64-byte blocks (`fuel ≥ bs.length`). -/
def chunks64 : (fuel : Nat) → (bs : List Nat) → List (List Nat)
  | 0, _ => []
  | _ + 1, [] => []
  | fuel + 1, b :: bs => ((b :: bs).take 64) :: chunks64 fuel ((b :: bs).drop 64)

/-- RFC 1321 padding: a `0x80` byte, zeros to 56 mod 64, then the original
bit length as eight little-endian bytes. -/
def md5Pad (msg : List Nat) : List Nat :=
  msg ++ [0x80] ++ List.replicate ((119 - msg.length % 64) % 64) 0 ++ le64 (msg.length * 8)

/-- `md5.Sum`: the 16-byte MD5 digest of a byte string. -/
def md5Sum (msg : List Nat) : List Nat :=
  let padded := md5Pad msg
  let fin := (chunks64 padded.length padded).foldl md5Block
    (0x67452301, 0xefcdab89, 0x98badcfe, 0x10325476)
  le32 fin.1 ++ le32 fin.2.1 ++ le32 fin.2.2.1 ++ le32 fin.2.2.2

def hexDigitChars : List Char := "0123456789abcdef".data

/-- Two lowercase hex characters of one byte (`b < 256`). -/
def hexByte (b : Nat) : List Char := [hexDigitChars.getD (b / 16) '0', hexDigitChars.getD (b % 16) '0']

/-- `hex.EncodeToString`: lowercase hex, no separators. -/
def hexEncodeToString (bs : List Nat) : String := String.mk (bs.flatMap hexByte)

/-- UTF-8 bytes of one character (Go string-to-`[]byte` conversion). -/
def utf8Char (c : Char) : List Nat :=
  let n := c.toNat
  if n < 0x80 then [n]
  else if n < 0x800 then [0xC0 + n / 64, 0x80 + n % 64]
  else if n < 0x10000 then [0xE0 + n / 4096, 0x80 + n / 64 % 64, 0x80 + n % 64]
  else [0xF0 + n / 262144, 0x80 + n / 4096 % 64, 0x80 + n / 64 % 64, 0x80 + n % 64]

/-- `[]byte(s)` for a Go string: UTF-8 encoding. -/
def strBytes (s : String) : List Nat := s.data.flatMap utf8Char

/-!
## appendDataToSheet (master.go lines 375-394)

The Sheets `Append` call is an external collaborator: the model receives the
response's `Updates.UpdatedRange` string as the input `updatedRange`, and the
append itself extends the sheet (the call path modelled is the successful
one; lines 384-385 are transport failure).  `now` stands for
`time.Now().Format("01-02-2006 15:04:05")`.
-/

inductive AppendErr where
  | rowParseError
  deriving Repr, DecidableEq

structure AppendOutcome where
  rowID : String
  checksum : String
  err : Option AppendErr
  sheet : List (List String)
  deriving Repr, DecidableEq

def appendDataToSheet (date name amount link : String) (now : String)
    (updatedRange : String) (sheet : List (List String)) : AppendOutcome :=
  let css := hexEncodeToString (md5Sum (strBytes (date ++ name ++ amount)))
  let values := [css, now, date, name, amount, link]
  let sheet1 := sheet ++ [values]
  match findStringSubmatch rowRegex updatedRange with
  | none => { rowID := "", checksum := css, err := some .rowParseError, sheet := sheet1 }
  | some (_, cap) => { rowID := cap, checksum := css, err := none, sheet := sheet1 }

/-!
## Drive files, moves, renames, and the per-file unit of Main
(master.go lines 91-169, 365-373)
-/

/-- The fields of `drive.File` the program reads or writes: `Id`, `Title`,
and the set of parent folders. -/
structure DriveFile where
  id : String
  title : String
  parents : List String
  deriving Repr, DecidableEq

/-- master.go lines 365-367: `Files.Update(file.Id, file).RemoveParents(fromFolder).AddParents(toFolder)`.
Removing a folder that is not among the file's parents is a no-op; the
target folder is added. -/
def moveFileToFolder (file : DriveFile) (fromFolder toFolder : String) : DriveFile :=
  { file with parents := file.parents.filter (fun p => p ≠ fromFolder) ++ [toFolder] }

/-- master.go lines 369-373: sets `file.Title` (a mutation of the Go struct
visible to later uses of the same pointer) and issues the update.  The
remote update only touches a real file when `file.id` is a real id; the
returned error is discarded by both call sites (lines 162-163). -/
def renameFile (file : DriveFile) (newName : String) : DriveFile :=
  { file with title := newName }

/-- Folder ids resolved by `setupFolders` plus the externally-supplied data
for one file's unit of work. -/
structure Env where
  uploadFolderID : String
  processedFolderID : String
  failedFolderID : String
  /-- Id assigned by `Files.Insert` to the derived document `r`. -/
  derivedId : String
  /-- `r.DefaultOpenWithLink` of the derived document. -/
  link : String
  /-- `time.Now()` formatted, used by `appendDataToSheet`. -/
  now : String
  /-- `Updates.UpdatedRange` of the append response. -/
  updatedRange : String
  deriving Repr, DecidableEq

/-- Outcome of one per-file goroutine of `Main`. -/
structure RunResult where
  /-- The uploaded screenshot (`fileDetails`). -/
  source : DriveFile
  /-- The derived OCR document (`r`, returned by `Files.Insert`). -/
  derived : DriveFile
  /-- The local insert-request struct `f`; its `id` stays `""` (the request
  body has no `Id`), so the rename issued against it at line 163 fails
  remotely and changes no real file. -/
  fStruct : DriveFile
  sheet : List (List String)
  extractErr : Option ExtractErr
  /-- `log.Fatalf` was reached (lines 155/158): the process dies before the
  renames. -/
  crashed : Bool
  deriving Repr, DecidableEq

/-- The body of the per-file goroutine of `Main` (master.go lines 110-165),
with the external calls (crop upload, insert, export) taken as succeeding
and their results supplied through `env` and `exported` (the text of the
`Export(r.Id, "text/plain")` download).  Note that after a failed
extraction the branch at lines 136-144 moves both files to `Failed` and
then falls through: lines 153-163 still run, with the zero values
`date = username = quantity = ""`. -/
def mainUnit (env : Env) (source : DriveFile) (exported : String)
    (sheet : List (List String)) : RunResult :=
  -- line 118-119: f := &drive.File{Title: fileDetails.Title + "_results", ...,
  --               Parents: [ProcessedFolderID]}
  let f : DriveFile := { id := "", title := source.title ++ "_results",
                         parents := [env.processedFolderID] }
  -- line 121: r, the document created from f (the API assigns its id)
  let r : DriveFile := { f with id := env.derivedId }
  -- line 135
  let ex := extractData exported
  let date := ex.1
  let username := ex.2.1
  let quantity := ex.2.2.1
  let err := ex.2.2.2
  -- lines 136-150
  let source1 :=
    match err with
    | some _ => moveFileToFolder source env.uploadFolderID env.failedFolderID
    | none => moveFileToFolder source env.uploadFolderID env.processedFolderID
  let r1 :=
    match err with
    | some _ => moveFileToFolder r env.uploadFolderID env.failedFolderID
    | none => r
  -- line 153 (unconditional: the failure branch does not return)
  let ap := appendDataToSheet date username quantity env.link env.now env.updatedRange sheet
  -- lines 154-159: cs is never "" (32 hex chars), so only the RowParseError
  -- branch can reach log.Fatalf
  match ap.err with
  | some _ =>
    { source := source1, derived := r1, fStruct := f, sheet := ap.sheet,
      extractErr := err, crashed := true }
  | none =>
    -- lines 161-163; the first call mutates r.Title, the second reads it back
    let r2 := renameFile r1 (ap.rowID ++ "-" ++ r1.title ++ "-" ++ ap.checksum)
    let f2 := renameFile f (ap.rowID ++ "-" ++ r2.title ++ "-" ++ ap.checksum)
    { source := source1, derived := r2, fStruct := f2, sheet := ap.sheet,
      extractErr := err, crashed := false }

/-!
## cropImage (master.go lines 397-434)

`cropImage` downloads the file, decodes it (`image.Decode` /
`image.DecodeConfig`), crops with `cutter.Crop` and re-encodes with
`png.Encode`.  The decoder, the `cutter` library and the PNG codec are
external collaborators (Go stdlib and `github.com/oliamb/cutter`); the
decoded raster is therefore the model's input, and the PNG byte stream is
modelled as a serialization that decodes back to the raster it encodes.
-/

/-- A decoded raster image: pixel dimensions and the color at each
coordinate (colors are opaque values). -/
structure GoImage where
  width : Nat
  height : Nat
  pix : Nat → Nat → Nat

/-- Modelled from the spec: `cutter.Crop` (third-party
`github.com/oliamb/cutter`, not part of this repository) with
`Config{Width: w, Height: h}` — no anchor or mode set, so the crop
rectangle is anchored at the top-left corner `(0,0)` and clipped to the
source bounds; the result keeps the source's pixels on that rectangle. -/
def cutterCrop (img : GoImage) (w h : Nat) : GoImage :=
  { width := min w img.width, height := min h img.height, pix := img.pix }

/-- Modelled from the spec: the byte stream produced by `png.Encode` (Go
stdlib, not part of this repository), abstracted as a serialization of the
raster that `image.Decode` recovers exactly ("output decodes as valid
PNG"): dimensions followed by the pixel rows in top-to-bottom, left-to-right
order. -/
def pngEncode (img : GoImage) : List Nat :=
  img.width :: img.height ::
    (List.range img.height).flatMap (fun y => (List.range img.width).map (fun x => img.pix x y))

/-- Modelled from the spec: decoding of the `pngEncode` stream; `none` for
a stream that is not a valid encoding. -/
def pngDecode (bytes : List Nat) : Option GoImage :=
  match bytes with
  | w :: h :: rest =>
    if rest.length = w * h then
      some { width := w, height := h, pix := fun x y => rest.getD (y * w + x) 0 }
    else none
  | _ => none

/-- master.go lines 397-434: decode (input `img` is the decoded raster;
`image.DecodeConfig` yields its `Width`/`Height`), crop to
`Width: imageDetails.Width / 2, Height: imageDetails.Height`, re-encode as
PNG. -/
def cropImage (img : GoImage) : List Nat :=
  pngEncode (cutterCrop img (img.width / 2) img.height)

/-!
## Match semantics

`Sem r u cap rest` says: regex `r` matches exactly the characters `u`, with
the (single) capturing group capturing `cap`, when the input continues with
`rest` (`rest` matters only to the end-of-text anchor).  Every candidate
produced by the engine is a semantic match (soundness, proved below); the
shape claims about `extractData`'s outputs follow from it.
-/

inductive Sem : RE → List Char → Option (List Char) → List Char → Prop where
  | eps : Sem .eps [] none s
  | ch : Sem (.ch c) [c] none s
  | chI (h : charIEq x c = true) : Sem (.chI c) [x] none s
  | dot (h : x ≠ '\n') : Sem .dot [x] none s
  | cls (h : x ∈ cs) : Sem (.cls cs) [x] none s
  | seq (ha : Sem a u ca (v ++ s)) (hb : Sem b v cb s) :
      Sem (.seq a b) (u ++ v) (mergeCap ca cb) s
  | starNil : Sem (.star a) [] none s
  | starCons (ha : Sem a u ca (v ++ s)) (hs : Sem (.star a) v cv s) :
      Sem (.star a) (u ++ v) (mergeCap ca cv) s
  | starLNil : Sem (.starL a) [] none s
  | starLCons (ha : Sem a u ca (v ++ s)) (hs : Sem (.starL a) v cv s) :
      Sem (.starL a) (u ++ v) (mergeCap ca cv) s
  | grp (h : Sem a u c s) : Sem (.grp a) u (some u) s
  | eol : Sem .eol [] none []

/-!
## Spec-side property definitions

These formalise the wording of the claims (not the code): the claimed
timestamp shape, the claimed quantity alphabet, and the claimed
first-non-empty-capture priority policy for the quantity patterns.
-/

/-- The claimed date shape `dddd-dd-dd dd:dd:dd` (`d` a decimal digit),
19 characters. -/
def dateShape (s : String) : Bool :=
  s.data.length = 19 &&
  ([0, 1, 2, 3, 5, 6, 8, 9, 11, 12, 14, 15, 17, 18].all
    (fun i => decide (s.data.getD i ' ' ∈ digitChars))) &&
  s.data.getD 4 ' ' = '-' && s.data.getD 7 ' ' = '-' && s.data.getD 10 '?' = ' ' &&
  s.data.getD 13 ' ' = ':' && s.data.getD 16 ' ' = ':'

/-- The claimed quantity alphabet: decimal digits and commas. -/
def quantityAlphabet (s : String) : Bool :=
  s.data.all (fun c => decide (c ∈ quantityChars))

/-- The quantity policy as the spec words it: try the three patterns in
priority order and take the first non-empty capture. -/
def quantityPriority (content : String) : Option String :=
  (capOrFail (findStringSubmatch quantityZeroRegex content)).orElse (fun _ =>
    (capOrFail (findStringSubmatch quantityFirstRegex content)).orElse (fun _ =>
      capOrFail (findStringSubmatch quantitySecondRegex content)))

/-!
## Concrete scenario inputs
-/

/-- The spec's end-to-end scenario text with CRLF line endings (the form the
quantity patterns require). -/
def scenarioCRLF : String :=
  "2021-05-01 12:00:00\r\nMember Donation - Screenshot (Jane Doe)\r\nType\r\n1,234\r\n"

/-- The same scenario text with bare LF line endings, as written in the
spec (`Type\n1,234`). -/
def scenarioLF : String :=
  "2021-05-01 12:00:00\nMember Donation - Screenshot (Jane Doe)\nType\n1,234\n"

/-- A text in which all three quantity layouts match with non-empty
captures: `Member Donation` before `Type` before `Quantity`. -/
def scenarioAllThree : String :=
  "2021-05-01 12:00:00\r\nMember Donation (Jane)\r\nMember Donation\r\n5\r\nType\r\n6\r\nQuantity\r\n7\r\n"

/-- The lowercase-label member line of claim C6, with a valid date. -/
def scenarioLowercase : String :=
  "2021-05-01 12:00:00\r\nmember donation (Jane)\r\nType\r\n1,234\r\n"

/-- A member line using brackets and an uppercase label. -/
def scenarioBracket : String :=
  "2021-05-01 12:00:00\r\nMember Donation - Screenshot [Jane Doe]\r\nType\r\n1,234\r\n"

/-- Folder ids and external responses for the concrete runs of `mainUnit`. -/
def envEx : Env :=
  { uploadFolderID := "upload-id", processedFolderID := "processed-id",
    failedFolderID := "failed-id", derivedId := "derived-id",
    link := "https://docs/derived-id", now := "09-01-2021 10:00:00",
    updatedRange := "Sheet1!A2:F2" }

/-- A concrete uploaded screenshot sitting in the Upload folder. -/
def sourceEx : DriveFile := { id := "source-id", title := "shot1.png", parents := ["upload-id"] }

/-!
## Soundness of the engine with respect to `Sem`
-/

theorem runRE_sound :
    ∀ (fuel : Nat) (r : RE) (s : List Char), ∀ c ∈ runRE fuel r s,
      s = c.1 ++ c.2.2 ∧ Sem r c.1 c.2.1 c.2.2 := by
  intro fuel
  induction fuel with
  | zero => intro r s c hc; simp [runRE] at hc
  | succ fuel ih =>
    intro r s c hc
    cases r with
    | eps =>
      simp only [runRE, List.mem_singleton] at hc
      subst hc
      exact ⟨rfl, .eps⟩
    | ch c0 =>
      cases s with
      | nil => simp [runRE] at hc
      | cons x rest =>
        simp only [runRE] at hc
        split at hc
        · simp only [List.mem_singleton] at hc
          subst hc
          rename_i hx
          subst hx
          exact ⟨rfl, .ch⟩
        · simp at hc
    | chI c0 =>
      cases s with
      | nil => simp [runRE] at hc
      | cons x rest =>
        simp only [runRE] at hc
        split at hc
        · simp only [List.mem_singleton] at hc
          subst hc
          exact ⟨rfl, .chI (by assumption)⟩
        · simp at hc
    | dot =>
      cases s with
      | nil => simp [runRE] at hc
      | cons x rest =>
        simp only [runRE] at hc
        split at hc
        · simp at hc
        · simp only [List.mem_singleton] at hc
          subst hc
          exact ⟨rfl, .dot (by assumption)⟩
    | cls cs =>
      cases s with
      | nil => simp [runRE] at hc
      | cons x rest =>
        simp only [runRE] at hc
        split at hc
        · simp only [List.mem_singleton] at hc
          subst hc
          exact ⟨rfl, .cls (by assumption)⟩
        · simp at hc
    | seq a b =>
      simp only [runRE, List.mem_flatMap, List.mem_map] at hc
      obtain ⟨uc, huc, vc, hvc, heq⟩ := hc
      obtain ⟨hsa, hma⟩ := ih a s uc huc
      obtain ⟨hsb, hmb⟩ := ih b uc.2.2 vc hvc
      subst heq
      refine ⟨by simp [hsa, hsb, List.append_assoc], ?_⟩
      exact .seq (hsb ▸ hma) hmb
    | star a =>
      simp only [runRE, List.mem_append, List.mem_flatMap, List.mem_map,
        List.mem_filter, List.mem_singleton] at hc
      rcases hc with ⟨uc, ⟨huc, _⟩, vc, hvc, heq⟩ | hc
      · obtain ⟨hsa, hma⟩ := ih a s uc huc
        obtain ⟨hsb, hmb⟩ := ih (.star a) uc.2.2 vc hvc
        subst heq
        refine ⟨by simp [hsa, hsb, List.append_assoc], ?_⟩
        exact .starCons (hsb ▸ hma) hmb
      · subst hc
        exact ⟨rfl, .starNil⟩
    | starL a =>
      simp only [runRE, List.mem_append, List.mem_flatMap, List.mem_map,
        List.mem_filter, List.mem_singleton] at hc
      rcases hc with hc | ⟨uc, ⟨huc, _⟩, vc, hvc, heq⟩
      · subst hc
        exact ⟨rfl, .starLNil⟩
      · obtain ⟨hsa, hma⟩ := ih a s uc huc
        obtain ⟨hsb, hmb⟩ := ih (.starL a) uc.2.2 vc hvc
        subst heq
        refine ⟨by simp [hsa, hsb, List.append_assoc], ?_⟩
        exact .starLCons (hsb ▸ hma) hmb
    | grp a =>
      simp only [runRE, List.mem_map] at hc
      obtain ⟨uc, huc, heq⟩ := hc
      obtain ⟨hsa, hma⟩ := ih a s uc huc
      subst heq
      exact ⟨hsa, .grp hma⟩
    | eol =>
      cases s with
      | nil =>
        simp only [runRE, List.mem_singleton] at hc
        subst hc
        exact ⟨rfl, .eol⟩
      | cons x rest => simp [runRE] at hc

theorem firstMatch_sound {r : RE} {s : List Char} {c : Cand}
    (h : firstMatch r s = some c) : s = c.1 ++ c.2.2 ∧ Sem r c.1 c.2.1 c.2.2 := by
  unfold firstMatch at h
  split at h
  · exact absurd h (by simp)
  · rename_i c0 cs heq
    injection h with h'
    subst h'
    exact runRE_sound _ r s _ (by rw [heq]; exact List.mem_cons_self _ _)

theorem scanRE_sound {r : RE} :
    ∀ {s : List Char} {p}, scanRE r s = some p →
      s = p.1 ++ p.2.1 ++ p.2.2.2 ∧ Sem r p.2.1 p.2.2.1 p.2.2.2 := by
  intro s
  induction s with
  | nil =>
    intro p h
    simp only [scanRE] at h
    split at h
    · rename_i u c rest heq
      obtain rfl : ([], u, c, rest) = p := by simpa using h
      obtain ⟨h1, h2⟩ := firstMatch_sound heq
      exact ⟨by simpa using h1, h2⟩
    · exact absurd h (by simp)
  | cons x s' ihs =>
    intro p h
    simp only [scanRE] at h
    split at h
    · rename_i u c rest heq
      obtain rfl : ([], u, c, rest) = p := by simpa using h
      obtain ⟨h1, h2⟩ := firstMatch_sound heq
      exact ⟨by simpa using h1, h2⟩
    · simp only [Option.map_eq_some'] at h
      obtain ⟨q, hq, rfl⟩ := h
      obtain ⟨h1, h2⟩ := ihs hq
      exact ⟨by simp [h1], h2⟩

/-- Soundness of the embedded `FindStringSubmatch`: a successful find means
the input decomposes around a semantic match of the pattern. -/
theorem findStringSubmatch_sound {r : RE} {s full cap : String}
    (h : findStringSubmatch r s = some (full, cap)) :
    ∃ pre capL rest, s.data = pre ++ full.data ++ rest ∧
      Sem r full.data capL rest ∧ cap.data = capL.getD [] := by
  unfold findStringSubmatch at h
  rw [Option.map_eq_some'] at h
  obtain ⟨p, hp, heq⟩ := h
  obtain ⟨h1, h2⟩ := scanRE_sound hp
  rw [Prod.mk.injEq] at heq
  obtain ⟨hfull, hcap⟩ := heq
  subst hfull
  subst hcap
  exact ⟨p.1, p.2.2.1, p.2.2.2, h1, h2, rfl⟩

/-!
## Inversion lemmas for `Sem`
-/

theorem mergeCap_none_left (b : Option (List Char)) : mergeCap none b = b := rfl

theorem mergeCap_some_left (a : List Char) (b : Option (List Char)) :
    mergeCap (some a) b = some a := rfl

theorem sem_eps_inv {u c rest} (h : Sem .eps u c rest) : u = [] ∧ c = none := by
  cases h
  exact ⟨rfl, rfl⟩

theorem sem_ch_inv {c0 u c rest} (h : Sem (.ch c0) u c rest) : u = [c0] ∧ c = none := by
  cases h
  exact ⟨rfl, rfl⟩

theorem sem_chI_inv {c0 u c rest} (h : Sem (.chI c0) u c rest) :
    ∃ x, u = [x] ∧ c = none ∧ charIEq x c0 = true := by
  cases h with
  | chI hx => exact ⟨_, rfl, rfl, hx⟩

theorem sem_dot_inv {u c rest} (h : Sem .dot u c rest) :
    ∃ x, u = [x] ∧ c = none ∧ x ≠ '\n' := by
  cases h with
  | dot hx => exact ⟨_, rfl, rfl, hx⟩

theorem sem_cls_inv {cs u c rest} (h : Sem (.cls cs) u c rest) :
    ∃ x, u = [x] ∧ c = none ∧ x ∈ cs := by
  cases h with
  | cls hx => exact ⟨_, rfl, rfl, hx⟩

theorem sem_seq_inv {a b w c rest} (h : Sem (.seq a b) w c rest) :
    ∃ u v ca cb, w = u ++ v ∧ c = mergeCap ca cb ∧ Sem a u ca (v ++ rest) ∧ Sem b v cb rest := by
  cases h with
  | seq ha hb => exact ⟨_, _, _, _, rfl, rfl, ha, hb⟩

theorem sem_grp_inv {a u c rest} (h : Sem (.grp a) u c rest) :
    c = some u ∧ ∃ ci, Sem a u ci rest := by
  cases h with
  | grp hi => exact ⟨rfl, _, hi⟩

theorem sem_eol_inv {u c rest} (h : Sem .eol u c rest) : u = [] ∧ c = none ∧ rest = [] := by
  cases h
  exact ⟨rfl, rfl, rfl⟩

/-- Star of a single-character pattern: no capture, and every consumed
character satisfies the pattern's character property. -/
theorem sem_star_chars {P : Char → Prop} :
    ∀ {r' : RE} {u c rest}, Sem r' u c rest →
      ∀ a : RE, r' = .star a →
      (∀ u' (c' : Option (List Char)) rest', Sem a u' c' rest' → ∃ x, u' = [x] ∧ c' = none ∧ P x) →
      c = none ∧ ∀ x ∈ u, P x := by
  intro r' u c rest h
  induction h with
  | eps => intro a he _; simp at he
  | ch => intro a he _; simp at he
  | chI _ => intro a he _; simp at he
  | dot _ => intro a he _; simp at he
  | cls _ => intro a he _; simp at he
  | seq _ _ _ _ => intro a he _; simp at he
  | starNil => intro a _ _; exact ⟨rfl, by simp⟩
  | starCons ha hs _ ihs =>
    intro a he hP
    injection he with hae
    subst hae
    obtain ⟨x, rfl, rfl, hx⟩ := hP _ _ _ ha
    obtain ⟨rfl, hall⟩ := ihs _ rfl hP
    refine ⟨rfl, ?_⟩
    intro y hy
    rcases List.mem_append.1 hy with hy | hy
    · rw [List.mem_singleton.1 hy]; exact hx
    · exact hall y hy
  | starLNil => intro a he _; simp at he
  | starLCons _ _ _ _ => intro a he _; simp at he
  | grp _ _ => intro a he _; simp at he
  | eol => intro a he _; simp at he

theorem sem_star_dot {u c rest} (h : Sem (.star .dot) u c rest) :
    c = none ∧ ∀ x ∈ u, x ≠ '\n' :=
  sem_star_chars h .dot rfl (fun _ _ _ h' => sem_dot_inv h')

theorem sem_star_cls {cs u c rest} (h : Sem (.star (.cls cs)) u c rest) :
    c = none ∧ ∀ x ∈ u, x ∈ cs :=
  sem_star_chars h (.cls cs) rfl (fun _ _ _ h' => sem_cls_inv h')

theorem sem_foldr_ch_inv :
    ∀ (l : List Char) {u c rest},
      Sem (l.foldr (fun ch r => RE.seq (.ch ch) r) .eps) u c rest → u = l ∧ c = none := by
  intro l
  induction l with
  | nil => intro u c rest h; exact sem_eps_inv h
  | cons ch l ih =>
    intro u c rest h
    obtain ⟨u1, v, ca, cb, rfl, rfl, h1, h2⟩ := sem_seq_inv h
    obtain ⟨rfl, rfl⟩ := sem_ch_inv h1
    obtain ⟨rfl, rfl⟩ := ih h2
    exact ⟨rfl, rfl⟩

theorem sem_litRE_inv {s : String} {u c rest} (h : Sem (litRE s) u c rest) :
    u = s.data ∧ c = none :=
  sem_foldr_ch_inv s.data h

theorem sem_foldr_chI_inv :
    ∀ (l : List Char) {u c rest},
      Sem (l.foldr (fun ch r => RE.seq (.chI ch) r) .eps) u c rest →
        List.Forall₂ (fun x ch => charIEq x ch = true) u l ∧ c = none := by
  intro l
  induction l with
  | nil =>
    intro u c rest h
    obtain ⟨rfl, rfl⟩ := sem_eps_inv h
    exact ⟨.nil, rfl⟩
  | cons ch l ih =>
    intro u c rest h
    obtain ⟨u1, v, ca, cb, rfl, rfl, h1, h2⟩ := sem_seq_inv h
    obtain ⟨x, rfl, rfl, hx⟩ := sem_chI_inv h1
    obtain ⟨hf, rfl⟩ := ih h2
    exact ⟨.cons hx hf, rfl⟩

theorem sem_litIRE_inv {s : String} {u c rest} (h : Sem (litIRE s) u c rest) :
    List.Forall₂ (fun x ch => charIEq x ch = true) u s.data ∧ c = none :=
  sem_foldr_chI_inv s.data h

/-!
## Shape lemmas for the five patterns
-/

theorem sem_seqRE_atoms :
    ∀ (rs : List RE), (∀ r ∈ rs, isAtomB r = true) →
      ∀ {u : List Char} {c rest}, Sem (seqRE rs) u c rest →
        c = none ∧ atomsMatch rs u = true := by
  intro rs
  induction rs with
  | nil =>
    intro _ u c rest h
    obtain ⟨rfl, rfl⟩ := sem_eps_inv h
    exact ⟨rfl, rfl⟩
  | cons r rs ih =>
    intro ha u c rest h
    obtain ⟨u1, v, ca, cb, rfl, rfl, h1, h2⟩ := sem_seq_inv h
    obtain ⟨rfl, hm⟩ := ih (fun r' hr => ha r' (List.mem_cons_of_mem _ hr)) h2
    have har := ha r (List.mem_cons_self _ _)
    obtain ⟨x, rfl, rfl, hx⟩ : ∃ x, u1 = [x] ∧ ca = none ∧ unitB r x = true := by
      cases r with
      | ch c0 =>
        obtain ⟨rfl, rfl⟩ := sem_ch_inv h1
        exact ⟨c0, rfl, rfl, by simp [unitB]⟩
      | cls cs =>
        obtain ⟨x, rfl, rfl, hx⟩ := sem_cls_inv h1
        exact ⟨x, rfl, rfl, by simp [unitB, hx]⟩
      | eps => simp [isAtomB] at har
      | chI c0 => simp [isAtomB] at har
      | dot => simp [isAtomB] at har
      | seq a b => simp [isAtomB] at har
      | star a => simp [isAtomB] at har
      | starL a => simp [isAtomB] at har
      | grp a => simp [isAtomB] at har
      | eol => simp [isAtomB] at har
    exact ⟨rfl, by simp [atomsMatch, hx, hm]⟩

theorem atomsMatch_length :
    ∀ (rs : List RE) (u : List Char), atomsMatch rs u = true → u.length = rs.length := by
  intro rs
  induction rs with
  | nil => intro u h; cases u with
    | nil => rfl
    | cons x xs => simp [atomsMatch] at h
  | cons r rs ih =>
    intro u h
    cases u with
    | nil => simp [atomsMatch] at h
    | cons x xs =>
      simp only [atomsMatch, Bool.and_eq_true] at h
      simp [ih xs h.2]

theorem atomsMatch_getD :
    ∀ (rs : List RE) (u : List Char), atomsMatch rs u = true →
      ∀ i, unitB (rs.getD i .eps) (u.getD i ' ') = true := by
  intro rs
  induction rs with
  | nil => intro u h i; cases u with
    | nil => rfl
    | cons x xs => simp [atomsMatch] at h
  | cons r rs ih =>
    intro u h i
    cases u with
    | nil => simp [atomsMatch] at h
    | cons x xs =>
      simp only [atomsMatch, Bool.and_eq_true] at h
      cases i with
      | zero => exact h.1
      | succ j => exact ih xs h.2 j

theorem unitB_ch {c0 x : Char} (h : unitB (.ch c0) x = true) : x = c0 := by
  simpa [unitB] using h

theorem unitB_cls {cs : List Char} {x : Char} (h : unitB (.cls cs) x = true) : x ∈ cs := by
  simpa [unitB] using h

theorem dateShape_of_atomsMatch (u : List Char) (hm : atomsMatch dateAtoms u = true) :
    dateShape (String.mk u) = true := by
  have hlen : u.length = 19 := atomsMatch_length dateAtoms u hm
  have hget := atomsMatch_getD dateAtoms u hm
  have f0 := unitB_cls (hget 0)
  have f1 := unitB_cls (hget 1)
  have f2 := unitB_cls (hget 2)
  have f3 := unitB_cls (hget 3)
  have f4 := unitB_ch (hget 4)
  have f5 := unitB_cls (hget 5)
  have f6 := unitB_cls (hget 6)
  have f7 := unitB_ch (hget 7)
  have f8 := unitB_cls (hget 8)
  have f9 := unitB_cls (hget 9)
  have f10 := unitB_ch (hget 10)
  have f11 := unitB_cls (hget 11)
  have f12 := unitB_cls (hget 12)
  have f13 := unitB_ch (hget 13)
  have f14 := unitB_cls (hget 14)
  have f15 := unitB_cls (hget 15)
  have f16 := unitB_ch (hget 16)
  have f17 := unitB_cls (hget 17)
  have f18 := unitB_cls (hget 18)
  simp only [List.getD_eq_getElem, show 0 < u.length from by omega, show 1 < u.length from by omega, show 2 < u.length from by omega, show 3 < u.length from by omega, show 4 < u.length from by omega, show 5 < u.length from by omega, show 6 < u.length from by omega, show 7 < u.length from by omega, show 8 < u.length from by omega, show 9 < u.length from by omega, show 10 < u.length from by omega, show 11 < u.length from by omega, show 12 < u.length from by omega, show 13 < u.length from by omega, show 14 < u.length from by omega, show 15 < u.length from by omega, show 16 < u.length from by omega, show 17 < u.length from by omega, show 18 < u.length from by omega] at f0 f1 f2 f3 f4 f5 f6 f7 f8 f9 f10 f11 f12 f13 f14 f15 f16 f17 f18
  simp [dateShape, hlen, f0, f1, f2, f3, f4, f5, f6, f7, f8, f9, f10,
    f11, f12, f13, f14, f15, f16, f17, f18]

/-- A semantic match of `dateRegex` captures the whole match, which has the
claimed 19-character `dddd-dd-dd dd:dd:dd` shape. -/
theorem sem_dateRegex_inv {u c rest} (h : Sem dateRegex u c rest) :
    c = some u ∧ dateShape (String.mk u) = true := by
  obtain ⟨rfl, ci, hb⟩ := sem_grp_inv h
  obtain ⟨-, hm⟩ := sem_seqRE_atoms dateAtoms (by decide) hb
  exact ⟨rfl, dateShape_of_atomsMatch u hm⟩

/-- A semantic match of `usernameRegex`: the (case-exact) literal
`Member Donation`, then same-line filler, an opening `(` or `[`, the
captured name, and a closing `)` or `]`. -/
theorem sem_usernameRegex_inv {w c rest} (h : Sem usernameRegex w c rest) :
    ∃ m b g e, w = "Member Donation".data ++ m ++ b :: (g ++ [e]) ∧ c = some g ∧
      b ∈ ['(', '['] ∧ e ∈ [')', ']'] ∧ (∀ x ∈ m, x ≠ '\n') ∧ ∀ x ∈ g, x ≠ '\n' := by
  obtain ⟨u1, v1, ca1, cb1, rfl, rfl, hg1, hb1⟩ := sem_seq_inv h
  obtain ⟨rfl, rfl⟩ := sem_litRE_inv hg1
  obtain ⟨u2, v2, ca2, cb2, rfl, rfl, hg2, hb2⟩ := sem_seq_inv hb1
  obtain ⟨rfl, hm⟩ := sem_star_dot hg2
  obtain ⟨u3, v3, ca3, cb3, rfl, rfl, hg3, hb3⟩ := sem_seq_inv hb2
  obtain ⟨b, rfl, rfl, hb⟩ := sem_cls_inv hg3
  obtain ⟨u4, v4, ca4, cb4, rfl, rfl, hg4, hb4⟩ := sem_seq_inv hb3
  obtain ⟨rfl, ci, hgi⟩ := sem_grp_inv hg4
  obtain ⟨rfl, hgc⟩ := sem_star_dot hgi
  obtain ⟨e, rfl, rfl, he⟩ := sem_cls_inv hb4
  exact ⟨u2, b, u4, e, by simp, rfl, hb, he, hm, hgc⟩

/-- A semantic match of a quantity pattern (`label` then CRLF then the
captured run of digits/commas): the label line is terminated by `\r\n`,
the capture is the digits-and-commas run. -/
theorem sem_qty_inv {label : String} {w c rest}
    (h : Sem (.seq (litIRE label)
      (.seq (.ch '\r') (.seq (.ch '\n') (.grp (.star (.cls quantityChars)))))) w c rest) :
    ∃ lab g, w = lab ++ '\r' :: '\n' :: g ∧ c = some g ∧
      List.Forall₂ (fun x ch => charIEq x ch = true) lab label.data ∧
      ∀ x ∈ g, x ∈ quantityChars := by
  obtain ⟨u1, v1, ca1, cb1, rfl, rfl, hg1, hb1⟩ := sem_seq_inv h
  obtain ⟨hlab, rfl⟩ := sem_litIRE_inv hg1
  obtain ⟨u2, v2, ca2, cb2, rfl, rfl, hg2, hb2⟩ := sem_seq_inv hb1
  obtain ⟨rfl, rfl⟩ := sem_ch_inv hg2
  obtain ⟨u3, v3, ca3, cb3, rfl, rfl, hg3, hb3⟩ := sem_seq_inv hb2
  obtain ⟨rfl, rfl⟩ := sem_ch_inv hg3
  obtain ⟨rfl, ci, hgi⟩ := sem_grp_inv hb3
  obtain ⟨rfl, hgc⟩ := sem_star_cls hgi
  exact ⟨u1, v3, by simp, rfl, hlab, hgc⟩

/-- A semantic match of `rowRegex`: same-line filler, `:`, an uppercase
letter, then the capture, which starts with a digit and runs to the end of
the text (the `$` anchor forces `rest = []`). -/
theorem sem_rowRegex_inv {w c rest} (h : Sem rowRegex w c rest) :
    ∃ m L d t, w = m ++ ':' :: L :: d :: t ∧ c = some (d :: t) ∧
      L ∈ upperChars ∧ d ∈ digitChars ∧ rest = [] := by
  obtain ⟨u1, v1, ca1, cb1, rfl, rfl, hg1, hb1⟩ := sem_seq_inv h
  obtain ⟨rfl, _⟩ := sem_star_dot hg1
  obtain ⟨u2, v2, ca2, cb2, rfl, rfl, hg2, hb2⟩ := sem_seq_inv hb1
  obtain ⟨rfl, rfl⟩ := sem_ch_inv hg2
  obtain ⟨u3, v3, ca3, cb3, rfl, rfl, hg3, hb3⟩ := sem_seq_inv hb2
  obtain ⟨L, rfl, rfl, hL⟩ := sem_cls_inv hg3
  obtain ⟨u4, v4, ca4, cb4, rfl, rfl, hg4, hb4⟩ := sem_seq_inv hb3
  obtain ⟨rfl, ci, hgi⟩ := sem_grp_inv hg4
  obtain ⟨u5, v5, ca5, cb5, rfl, rfl, hg5, hb5⟩ := sem_seq_inv hgi
  obtain ⟨d, rfl, rfl, hd⟩ := sem_cls_inv hg5
  obtain ⟨rfl, rfl, rfl⟩ := sem_eol_inv hb4
  exact ⟨u1, L, d, v5, by simp, by simp [mergeCap], hL, hd, by simp⟩

/-!
## Checksum and append lemmas
-/

theorem appendDataToSheet_checksum (d n a link now rng : String) (sheet : List (List String)) :
    (appendDataToSheet d n a link now rng sheet).checksum =
      hexEncodeToString (md5Sum (strBytes (d ++ n ++ a))) := by
  unfold appendDataToSheet
  cases h : findStringSubmatch rowRegex rng with
  | none => simp
  | some p => cases p; simp

theorem md5Sum_length (msg : List Nat) : (md5Sum msg).length = 16 := by
  unfold md5Sum le32
  simp

theorem hexEncode_length (bs : List Nat) : (hexEncodeToString bs).length = 2 * bs.length := by
  show (bs.flatMap hexByte).length = 2 * bs.length
  induction bs with
  | nil => simp
  | cons b bs ih => simp [hexByte, ih]; omega

theorem hexDigit_getD_mem (i : Nat) : hexDigitChars.getD i '0' ∈ hexDigitChars := by
  by_cases h : i < 16
  · interval_cases i <;> decide
  · rw [List.getD_eq_default _ _ (by rw [show hexDigitChars.length = 16 from by decide]; omega)]
    decide

theorem hexEncode_chars (bs : List Nat) : ∀ ch ∈ (hexEncodeToString bs).data, ch ∈ hexDigitChars := by
  intro ch hch
  have : ch ∈ bs.flatMap hexByte := hch
  rw [List.mem_flatMap] at this
  obtain ⟨b, _, hb⟩ := this
  simp only [hexByte, List.mem_cons, List.not_mem_nil, or_false] at hb
  rcases hb with rfl | rfl
  · exact hexDigit_getD_mem _
  · exact hexDigit_getD_mem _

/-- C7: the row checksum is the lowercase hex encoding (no separators) of
the 16-byte MD5 digest of `date ++ member ++ quantity`, and it depends only
on that triple: two append calls with the same `(date, member, quantity)`
yield the same checksum whatever the other inputs are. -/
theorem checksum_spec (d m q link now rng : String) (sheet : List (List String)) :
    (appendDataToSheet d m q link now rng sheet).checksum =
      hexEncodeToString (md5Sum (strBytes (d ++ m ++ q))) ∧
    (md5Sum (strBytes (d ++ m ++ q))).length = 16 ∧
    ((appendDataToSheet d m q link now rng sheet).checksum).length = 32 ∧
    (∀ ch ∈ ((appendDataToSheet d m q link now rng sheet).checksum).data, ch ∈ hexDigitChars) ∧
    ∀ (link' now' rng' : String) (sheet' : List (List String)),
      (appendDataToSheet d m q link' now' rng' sheet').checksum =
      (appendDataToSheet d m q link now rng sheet).checksum := by
  have h := appendDataToSheet_checksum d m q link now rng sheet
  refine ⟨h, md5Sum_length _, ?_, ?_, ?_⟩
  · rw [h, hexEncode_length, md5Sum_length]
  · rw [h]
    exact hexEncode_chars _
  · intro link' now' rng' sheet'
    rw [h, appendDataToSheet_checksum]

/-- Closed witness for `checksum_spec` at a concrete triple. -/
theorem checksum_spec_witness :
    (appendDataToSheet "2021-05-01 12:00:00" "Jane Doe" "1,234" "l" "n" "Sheet1!A2:F2" []).checksum =
      hexEncodeToString (md5Sum (strBytes ("2021-05-01 12:00:00" ++ "Jane Doe" ++ "1,234"))) ∧
    (md5Sum (strBytes ("2021-05-01 12:00:00" ++ "Jane Doe" ++ "1,234"))).length = 16 :=
  ⟨(checksum_spec "2021-05-01 12:00:00" "Jane Doe" "1,234" "l" "n" "Sheet1!A2:F2" []).1,
   (checksum_spec "2021-05-01 12:00:00" "Jane Doe" "1,234" "l" "n" "Sheet1!A2:F2" []).2.1⟩

/-- C8: the appended row is in the sheet whatever the parse outcome (the
append is not undone); a non-matching updated-range reference yields
`rowParseError` with the checksum still returned; a matching reference
returns the capture as the row id, and the reference then ends in
`:<uppercase letter><capture>` with the capture starting with a digit and
running to the end of the reference. -/
theorem appendDataToSheet_rowParse (d n a link now rng : String) (sheet : List (List String)) :
    ((appendDataToSheet d n a link now rng sheet).sheet =
      sheet ++ [[(appendDataToSheet d n a link now rng sheet).checksum, now, d, n, a, link]]) ∧
    (findStringSubmatch rowRegex rng = none →
      (appendDataToSheet d n a link now rng sheet).rowID = "" ∧
      (appendDataToSheet d n a link now rng sheet).err = some .rowParseError ∧
      (appendDataToSheet d n a link now rng sheet).checksum =
        hexEncodeToString (md5Sum (strBytes (d ++ n ++ a)))) ∧
    ∀ full cap, findStringSubmatch rowRegex rng = some (full, cap) →
      (appendDataToSheet d n a link now rng sheet).rowID = cap ∧
      (appendDataToSheet d n a link now rng sheet).err = none ∧
      ∃ pre m L, rng.data = pre ++ m ++ ':' :: L :: cap.data ∧ L ∈ upperChars ∧
        ∃ d0 t, cap.data = d0 :: t ∧ d0 ∈ digitChars := by
  refine ⟨?_, ?_, ?_⟩
  · unfold appendDataToSheet
    cases h : findStringSubmatch rowRegex rng with
    | none => simp
    | some p => cases p; simp
  · intro h
    refine ⟨?_, ?_, appendDataToSheet_checksum d n a link now rng sheet⟩ <;>
      · unfold appendDataToSheet
        rw [h]
  · intro full cap h
    obtain ⟨pre, capL, rest, hsplit, hsem, hcap⟩ := findStringSubmatch_sound h
    obtain ⟨m, L, d0, t, hw, hc, hL, hd0, hrest⟩ := sem_rowRegex_inv hsem
    subst hc
    subst hrest
    constructor
    · unfold appendDataToSheet
      rw [h]
    refine ⟨?_, pre, m, L, ?_, hL, d0, t, by simp [hcap], hd0⟩
    · unfold appendDataToSheet
      rw [h]
    · rw [hsplit, hw, hcap]
      simp

/-- Closed witness for `appendDataToSheet_rowParse`: a matching reference
(`Sheet1!A2:F2`, row id `2`) and a non-matching one (`garbage`). -/
theorem appendDataToSheet_rowParse_witness :
    ((appendDataToSheet "d" "n" "a" "l" "now" "Sheet1!A2:F2" []).rowID = "2" ∧
     (appendDataToSheet "d" "n" "a" "l" "now" "Sheet1!A2:F2" []).err = none) ∧
    ((appendDataToSheet "d" "n" "a" "l" "now" "garbage" []).rowID = "" ∧
     (appendDataToSheet "d" "n" "a" "l" "now" "garbage" []).err = some .rowParseError) := by
  have h1 := (appendDataToSheet_rowParse "d" "n" "a" "l" "now" "Sheet1!A2:F2" []).2.2
    "Sheet1!A2:F2" "2" (by decide)
  have h2 := (appendDataToSheet_rowParse "d" "n" "a" "l" "now" "garbage" []).2.1 (by decide)
  exact ⟨⟨h1.1, h1.2.1⟩, ⟨h2.1, h2.2.1⟩⟩

/-!
## Crop geometry lemmas
-/

theorem rows_length (hgt w : Nat) (f : Nat → Nat → Nat) :
    ((List.range hgt).flatMap (fun y => (List.range w).map (fun x => f x y))).length = hgt * w := by
  induction hgt with
  | zero => simp
  | succ n ih =>
    rw [List.range_succ, List.flatMap_append]
    simp [ih]
    ring

theorem map_range_getD (w : Nat) (g : Nat → Nat) (x : Nat) (hx : x < w) :
    ((List.range w).map g).getD x 0 = g x := by
  rw [List.getD_eq_getElem _ _ (by simpa using hx)]
  simp

theorem rows_getD (hgt w : Nat) (f : Nat → Nat → Nat) (x y : Nat) (hx : x < w) (hy : y < hgt) :
    ((List.range hgt).flatMap (fun j => (List.range w).map (fun i => f i j))).getD (y * w + x) 0
      = f x y := by
  induction hgt with
  | zero => omega
  | succ n ih =>
    rw [List.range_succ, List.flatMap_append]
    rcases Nat.lt_or_ge y n with h | h
    · rw [List.getD_append _ _ _ _ (by rw [rows_length]; calc
        y * w + x < y * w + w := by omega
        _ = (y + 1) * w := by ring
        _ ≤ n * w := Nat.mul_le_mul_right w h)]
      exact ih h
    · have hyn : y = n := by omega
      subst hyn
      rw [List.getD_append_right _ _ _ _ (by rw [rows_length]; exact Nat.le_add_right _ _)]
      rw [rows_length]
      simp only [Nat.add_sub_cancel_left, List.flatMap_cons, List.flatMap_nil, List.append_nil]
      exact map_range_getD w _ x hx

/-- C9: for every decoded raster, `cropImage` produces a stream that
decodes back to an image of width `⌊W/2⌋` and height `H` holding the left
half of the original, anchored at the top-left corner.  (The PNG container
itself is the stdlib collaborator, modelled by the `pngEncode`/`pngDecode`
pair above.) -/
theorem cropImage_spec (img : GoImage) :
    ∃ out, pngDecode (cropImage img) = some out ∧
      out.width = img.width / 2 ∧ out.height = img.height ∧
      ∀ x y, x < img.width / 2 → y < img.height → out.pix x y = img.pix x y := by
  have hw : min (img.width / 2) img.width = img.width / 2 :=
    min_eq_left (Nat.div_le_self _ _)
  have hh : min img.height img.height = img.height := min_self _
  have henc : cropImage img = (img.width / 2) :: img.height ::
      (List.range img.height).flatMap
        (fun y => (List.range (img.width / 2)).map (fun x => img.pix x y)) := by
    unfold cropImage cutterCrop pngEncode
    rw [hw, hh]
  rw [henc]
  simp only [pngDecode]
  rw [if_pos (by rw [rows_length]; ring)]
  refine ⟨_, rfl, rfl, rfl, ?_⟩
  intro x y hx hy
  exact rows_getD img.height (img.width / 2) img.pix x y hx hy

/-- Closed witness for `cropImage_spec` at a concrete 5×3 image. -/
theorem cropImage_spec_witness :
    ∃ out, pngDecode (cropImage ⟨5, 3, fun x y => 10 * y + x⟩) = some out ∧
      out.width = 2 ∧ out.height = 3 ∧ out.pix 1 2 = 21 := by
  obtain ⟨out, h1, h2, h3, h4⟩ := cropImage_spec ⟨5, 3, fun x y => 10 * y + x⟩
  exact ⟨out, h1, h2, h3, by rw [h4 1 2 (by decide) (by decide)]⟩

/-!
## extractData structure lemmas
-/

theorem string_mk_data (s : String) : String.mk s.data = s := rfl

theorem capOrFail_some_inv {res : Option (String × String)} {q : String}
    (h : capOrFail res = some q) : q ≠ "" ∧ ∃ full, res = some (full, q) := by
  unfold capOrFail at h
  split at h
  · exact absurd h (by simp)
  · rename_i full cap
    split at h
    · exact absurd h (by simp)
    · rename_i hne
      injection h with h'
      subst h'
      exact ⟨hne, full, rfl⟩

/-- A successful `extractData` run: the date and member captures come from
successful finds of their patterns, and the quantity is a non-empty capture
of one of the three quantity patterns. -/
theorem extractData_success_inv {content d u q : String}
    (h : extractData content = (d, u, q, none)) :
    (∃ dfull, findStringSubmatch dateRegex content = some (dfull, d)) ∧
    (∃ ufull, findStringSubmatch usernameRegex content = some (ufull, u)) ∧
    q ≠ "" ∧
    ∃ qfull, findStringSubmatch quantityZeroRegex content = some (qfull, q) ∨
             findStringSubmatch quantityFirstRegex content = some (qfull, q) ∨
             findStringSubmatch quantitySecondRegex content = some (qfull, q) := by
  unfold extractData at h
  split at h
  · simp at h
  · rename_i dfull dateCap hdate
    split at h
    · simp at h
    · rename_i ufull userCap huser
      split at h
      · rename_i q0 hq0
        simp only [Prod.mk.injEq] at h
        obtain ⟨rfl, rfl, rfl, -⟩ := h
        obtain ⟨hne, qfull, hq⟩ := capOrFail_some_inv hq0
        exact ⟨⟨dfull, hdate⟩, ⟨ufull, huser⟩, hne, qfull, .inl hq⟩
      · split at h
        · rename_i q1 hq1
          simp only [Prod.mk.injEq] at h
          obtain ⟨rfl, rfl, rfl, -⟩ := h
          obtain ⟨hne, qfull, hq⟩ := capOrFail_some_inv hq1
          exact ⟨⟨dfull, hdate⟩, ⟨ufull, huser⟩, hne, qfull, .inr (.inl hq)⟩
        · split at h
          · rename_i q2 hq2
            simp only [Prod.mk.injEq] at h
            obtain ⟨rfl, rfl, rfl, -⟩ := h
            obtain ⟨hne, qfull, hq⟩ := capOrFail_some_inv hq2
            exact ⟨⟨dfull, hdate⟩, ⟨ufull, huser⟩, hne, qfull, .inr (.inr hq)⟩
          · simp at h

/-- The quantity capture of one quantity pattern, decomposed inside the
input text: a case-insensitive occurrence of the label, then CRLF, then the
captured digits-and-commas run. -/
theorem qty_find_decomp {label : String} {re : RE} {content qfull q : String}
    (hre : re = .seq (litIRE label)
      (.seq (.ch '\r') (.seq (.ch '\n') (.grp (.star (.cls quantityChars))))))
    (h : findStringSubmatch re content = some (qfull, q)) :
    quantityAlphabet q = true ∧
    ∃ pre lab post, List.Forall₂ (fun x ch => charIEq x ch = true) lab label.data ∧
      content.data = pre ++ lab ++ '\r' :: '\n' :: (q.data ++ post) := by
  subst hre
  obtain ⟨pre, capL, rest, hsplit, hsem, hcap⟩ := findStringSubmatch_sound h
  obtain ⟨lab, g, hw, hc, hlab, hgc⟩ := sem_qty_inv hsem
  subst hc
  have hqd : q.data = g := by rw [hcap]; rfl
  constructor
  · rw [quantityAlphabet, hqd, List.all_eq_true]
    intro x hx
    exact decide_eq_true (hgc x hx)
  · refine ⟨pre, lab, rest, hlab, ?_⟩
    rw [hsplit, hw, hqd]
    simp

/-- C10: whenever `extractData` succeeds, the returned date has the exact
19-character shape `dddd-dd-dd dd:dd:dd`, the returned quantity is a
non-empty string of decimal digits and commas, and the quantity label that
matched is terminated by `"\r\n"` inside the input text. -/
theorem extractData_success_shapes {content d u q : String}
    (h : extractData content = (d, u, q, none)) :
    dateShape d = true ∧
    q ≠ "" ∧ quantityAlphabet q = true ∧
    ∃ label : String,
      (label = "Member Donation" ∨ label = "Type" ∨ label = "Quantity") ∧
      ∃ pre lab post, List.Forall₂ (fun x ch => charIEq x ch = true) lab label.data ∧
        content.data = pre ++ lab ++ '\r' :: '\n' :: (q.data ++ post) := by
  obtain ⟨⟨dfull, hdate⟩, -, hne, qfull, hq⟩ := extractData_success_inv h
  refine ⟨?_, hne, ?_⟩
  · obtain ⟨pre, capL, rest, hsplit, hsem, hcap⟩ := findStringSubmatch_sound hdate
    obtain ⟨hc, hshape⟩ := sem_dateRegex_inv hsem
    subst hc
    have : String.mk dfull.data = d := by
      rw [show dfull.data = d.data from by rw [hcap]; rfl, string_mk_data]
    rwa [this] at hshape
  · rcases hq with hq | hq | hq
    · obtain ⟨ha, hd⟩ := qty_find_decomp rfl hq
      exact ⟨ha, "Member Donation", .inl rfl, hd⟩
    · obtain ⟨ha, hd⟩ := qty_find_decomp rfl hq
      exact ⟨ha, "Type", .inr (.inl rfl), hd⟩
    · obtain ⟨ha, hd⟩ := qty_find_decomp rfl hq
      exact ⟨ha, "Quantity", .inr (.inr rfl), hd⟩

/-- Closed witness for `extractData_success_shapes` at the CRLF scenario
text. -/
theorem extractData_success_shapes_witness :
    dateShape "2021-05-01 12:00:00" = true ∧
    ("1,234" : String) ≠ "" ∧ quantityAlphabet "1,234" = true ∧
    ∃ label : String,
      (label = "Member Donation" ∨ label = "Type" ∨ label = "Quantity") ∧
      ∃ pre lab post, List.Forall₂ (fun x ch => charIEq x ch = true) lab label.data ∧
        scenarioCRLF.data = pre ++ lab ++ '\r' :: '\n' :: (("1,234" : String).data ++ post) :=
  @extractData_success_shapes scenarioCRLF "2021-05-01 12:00:00" "Jane Doe" "1,234" (by decide)

/-!
## Member extraction (C6)
-/

/-- C6 counterexample: the lowercase label `member donation (Jane)` does
not match the (flagless, case-sensitive) `usernameRegex`, so `extractData`
fails with `UsernameNotFound` instead of returning `member = "Jane"`. -/
theorem extractData_lowercase_username_fails :
    extractData scenarioLowercase = ("", "", "", some .usernameNotFound) ∧
    (extractData scenarioLowercase).2.1 ≠ "Jane" := by decide

/-- C6 (amended): member extraction is case-sensitive: a successful
`extractData` means the text contains the exact literal `Member Donation`,
same-line filler, an opening `(` or `[`, the captured name, and a closing
`)` or `]`; when the date matched but no such line exists the error is
`UsernameNotFound`; in particular the lowercase `member donation (Jane)`
text fails with `UsernameNotFound`. -/
theorem username_extraction_amended :
    (∀ (content d u q : String), extractData content = (d, u, q, none) →
      ∃ pre mid b e post,
        content.data = pre ++ ("Member Donation".data ++ mid ++ b :: (u.data ++ [e])) ++ post ∧
        b ∈ ['(', '['] ∧ e ∈ [')', ']'] ∧ (∀ x ∈ mid, x ≠ '\n') ∧ ∀ x ∈ u.data, x ≠ '\n') ∧
    (∀ content : String, findStringSubmatch dateRegex content ≠ none →
      findStringSubmatch usernameRegex content = none →
      extractData content = ("", "", "", some .usernameNotFound)) ∧
    extractData scenarioLowercase = ("", "", "", some .usernameNotFound) := by
  refine ⟨?_, ?_, by decide⟩
  · intro content d u q h
    obtain ⟨-, ⟨ufull, huser⟩, -, -⟩ := extractData_success_inv h
    obtain ⟨pre, capL, rest, hsplit, hsem, hcap⟩ := findStringSubmatch_sound huser
    obtain ⟨m, b, g, e, hw, hc, hb, he, hm, hgc⟩ := sem_usernameRegex_inv hsem
    subst hc
    have hud : u.data = g := by rw [hcap]; rfl
    refine ⟨pre, m, b, e, rest, ?_, hb, he, hm, by rw [hud]; exact hgc⟩
    rw [hsplit, hw, hud]
  · intro content hd hu
    obtain ⟨p, hp⟩ := Option.ne_none_iff_exists'.1 hd
    obtain ⟨pf, pc⟩ := p
    unfold extractData
    rw [hp, hu]

/-- A text with a valid date but no member line at all. -/
def scenarioNoMember : String := "2021-05-01 12:00:00 and nothing else"

/-- Closed witness for `username_extraction_amended`. -/
theorem username_extraction_amended_witness :
    (∃ pre mid b e post,
      scenarioCRLF.data =
        pre ++ ("Member Donation".data ++ mid ++ b :: (("Jane Doe" : String).data ++ [e])) ++ post ∧
      b ∈ ['(', '['] ∧ e ∈ [')', ']'] ∧ (∀ x ∈ mid, x ≠ '\n') ∧
      ∀ x ∈ ("Jane Doe" : String).data, x ≠ '\n') ∧
    extractData scenarioNoMember = ("", "", "", some .usernameNotFound) :=
  ⟨username_extraction_amended.1 scenarioCRLF "2021-05-01 12:00:00" "Jane Doe" "1,234" (by decide),
   username_extraction_amended.2.1 scenarioNoMember (by decide) (by decide)⟩

/-!
## Quantity priority (C4)
-/

theorem quantityPriority_eq (content : String) :
    quantityPriority content =
      match capOrFail (findStringSubmatch quantityZeroRegex content) with
      | some q => some q
      | none =>
        match capOrFail (findStringSubmatch quantityFirstRegex content) with
        | some q => some q
        | none => capOrFail (findStringSubmatch quantitySecondRegex content) := by
  unfold quantityPriority
  cases capOrFail (findStringSubmatch quantityZeroRegex content) <;>
    cases capOrFail (findStringSubmatch quantityFirstRegex content) <;> rfl

/-- Once the date and member patterns have matched, the quantity step of
`extractData` is exactly the spec's first-non-empty-capture priority
policy. -/
theorem extractData_quantity_eq :
    ∀ (content dfull d ufull u : String),
      findStringSubmatch dateRegex content = some (dfull, d) →
      findStringSubmatch usernameRegex content = some (ufull, u) →
      extractData content =
        match quantityPriority content with
        | some v => (d, u, v, none)
        | none => ("", "", "", some .quantityNotFound) := by
  intro content dfull d ufull u hd hu
  rw [quantityPriority_eq]
  unfold extractData
  rw [hd, hu]
  cases h0 : capOrFail (findStringSubmatch quantityZeroRegex content) with
  | some q0 => rfl
  | none =>
    cases h1 : capOrFail (findStringSubmatch quantityFirstRegex content) with
    | some q1 => rfl
    | none =>
      cases h2 : capOrFail (findStringSubmatch quantitySecondRegex content) with
      | some q2 => rfl
      | none => rfl

theorem quantityPriority_first :
    ∀ (content t : String),
      capOrFail (findStringSubmatch quantityZeroRegex content) = none →
      capOrFail (findStringSubmatch quantityFirstRegex content) = some t →
      quantityPriority content = some t := by
  intro content t h0 h1
  rw [quantityPriority_eq, h0, h1]

/-- C4 counterexample: in `scenarioAllThree` both the `Type` layout
(capture `"6"`) and the `Quantity` layout (capture `"7"`) match, yet
`extractData` returns `"5"` — the `Member Donation` pattern, which has
higher priority than both — contradicting "the Type capture is
returned". -/
theorem quantity_type_priority_counterexample :
    extractData scenarioAllThree = ("2021-05-01 12:00:00", "Jane", "5", none) ∧
    capOrFail (findStringSubmatch quantityFirstRegex scenarioAllThree) = some "6" ∧
    capOrFail (findStringSubmatch quantitySecondRegex scenarioAllThree) = some "7" ∧
    (extractData scenarioAllThree).2.2.1 ≠ "6" := by decide

/-- C4 (amended): the quantity step tries `Member Donation`, `Type`,
`Quantity` in that order and returns the first non-empty capture (all three
failing yields `QuantityNotFound`); when the `Member Donation` pattern
yields no non-empty capture and the `Type` pattern does, the `Type` capture
is what `extractData` returns, whatever the `Quantity` layout does. -/
theorem quantity_priority_amended :
    (∀ (content dfull d ufull u : String),
      findStringSubmatch dateRegex content = some (dfull, d) →
      findStringSubmatch usernameRegex content = some (ufull, u) →
      extractData content =
        match quantityPriority content with
        | some v => (d, u, v, none)
        | none => ("", "", "", some .quantityNotFound)) ∧
    (∀ (content t : String),
      capOrFail (findStringSubmatch quantityZeroRegex content) = none →
      capOrFail (findStringSubmatch quantityFirstRegex content) = some t →
      quantityPriority content = some t) ∧
    (∀ (content d u q t : String), extractData content = (d, u, q, none) →
      capOrFail (findStringSubmatch quantityZeroRegex content) = none →
      capOrFail (findStringSubmatch quantityFirstRegex content) = some t → q = t) := by
  refine ⟨extractData_quantity_eq, quantityPriority_first, ?_⟩
  intro content d u q t h h0 h1
  obtain ⟨⟨dfull, hd⟩, ⟨ufull, hu⟩, -, -⟩ := extractData_success_inv h
  have he : extractData content = (d, u, t, none) := by
    rw [extractData_quantity_eq content dfull d ufull u hd hu,
      quantityPriority_first content t h0 h1]
  rw [h] at he
  simp only [Prod.mk.injEq] at he
  exact he.2.2.1

/-- Closed witness for `quantity_priority_amended` at the CRLF scenario. -/
theorem quantity_priority_amended_witness :
    (extractData scenarioCRLF =
      match quantityPriority scenarioCRLF with
      | some v => ("2021-05-01 12:00:00", "Jane Doe", v, none)
      | none => ("", "", "", some .quantityNotFound)) ∧
    quantityPriority scenarioCRLF = some "1,234" ∧
    ("1,234" : String) = "1,234" :=
  ⟨quantity_priority_amended.1 scenarioCRLF "2021-05-01 12:00:00" "2021-05-01 12:00:00"
      "Member Donation - Screenshot (Jane Doe)" "Jane Doe" (by decide) (by decide),
   quantity_priority_amended.2.1 scenarioCRLF "1,234" (by decide) (by decide),
   quantity_priority_amended.2.2 scenarioCRLF "2021-05-01 12:00:00" "Jane Doe" "1,234" "1,234"
      (by decide) (by decide) (by decide)⟩

/-!
## End-to-end scenario (C2)
-/

/-- C2 counterexample: with bare LF line endings — the literal reading of
the spec's `Type\n1,234` block — none of the quantity patterns can match
(they all require `\r\n` after the label), so `extractData` fails with
`QuantityNotFound` instead of succeeding. -/
theorem scenarioLF_fails :
    extractData scenarioLF = ("", "", "", some .quantityNotFound) ∧
    extractData scenarioLF ≠ ("2021-05-01 12:00:00", "Jane Doe", "1,234", none) := by decide

/-- C2 (amended): on the scenario text whose `Type` label line is
terminated by `\r\n`, `extractData` returns
`("2021-05-01 12:00:00", "Jane Doe", "1,234")` and no error. -/
theorem scenarioCRLF_succeeds :
    extractData scenarioCRLF = ("2021-05-01 12:00:00", "Jane Doe", "1,234", none) := by decide

/-!
## Orchestration of Main (C1, C3, C5)
-/

/-- C1: evaluation of the per-file unit at a failing input.  `extractData`
fails with `DateNotFound`, both files are routed to `Failed` — and then the
code falls through (no `return` at master.go line 144): a row with empty
date, member and quantity cells still reaches the spreadsheet, carrying the
checksum of the empty concatenation. -/
theorem failed_extraction_still_appends :
    (mainUnit envEx sourceEx "scrambled noise" []).extractErr = some .dateNotFound ∧
    (mainUnit envEx sourceEx "scrambled noise" []).sheet =
      [["d41d8cd98f00b204e9800998ecf8427e", "09-01-2021 10:00:00", "", "", "",
        "https://docs/derived-id"]] := by decide

/-- C3: evaluation of the per-file unit at a failing input.  The source
file ends exclusively in `Failed`, but the derived document — created with
parent `Processed` and moved with `fromFolder = UploadFolderID` (master.go
line 141) — keeps its `Processed` parent and ends in both `Processed` and
`Failed`. -/
theorem derived_document_in_both_folders :
    (mainUnit envEx sourceEx "scrambled noise" []).source.parents = ["failed-id"] ∧
    (mainUnit envEx sourceEx "scrambled noise" []).derived.parents =
      ["processed-id", "failed-id"] := by decide

/-- C5 counterexample: a successful run.  The derived document is renamed
to `<rowID>-<derivedTitle>-<cs>`, but the source file keeps its original
name (`renameFile` at line 163 is called on the insert-request struct `f`,
not on `fileDetails`), and that second rename's name double-prefixes the
row id and checksum because line 162 already mutated `r.Title`. -/
theorem rename_counterexample :
    (mainUnit envEx sourceEx scenarioCRLF []).extractErr = none ∧
    (mainUnit envEx sourceEx scenarioCRLF []).derived.title =
      "2-shot1.png_results-3e54e322dffb6e59e0785e73dbd5961f" ∧
    (mainUnit envEx sourceEx scenarioCRLF []).source.title = "shot1.png" ∧
    (mainUnit envEx sourceEx scenarioCRLF []).fStruct.title =
      "2-2-shot1.png_results-3e54e322dffb6e59e0785e73dbd5961f-3e54e322dffb6e59e0785e73dbd5961f" ∧
    (mainUnit envEx sourceEx scenarioCRLF []).source.title ≠
      "2" ++ "-" ++ "shot1.png_results" ++ "-" ++ "3e54e322dffb6e59e0785e73dbd5961f" := by decide

/-- C5 (amended): in any non-crashing run, the derived document is renamed
to `<rowID>-<derivedTitle>-<checksum>` (with `derivedTitle` its title
before renaming); the source file's name is untouched; and the second
rename call targets the id-less insert-request struct with the
double-prefixed name `<rowID>-<rowID>-<derivedTitle>-<checksum>-<checksum>`. -/
theorem rename_behaviour_amended :
    ∀ (env : Env) (source : DriveFile) (exported : String) (sheet : List (List String)),
      (mainUnit env source exported sheet).crashed = false →
      ((mainUnit env source exported sheet).derived.title =
        (appendDataToSheet (extractData exported).1 (extractData exported).2.1
          (extractData exported).2.2.1 env.link env.now env.updatedRange sheet).rowID
        ++ "-" ++ (source.title ++ "_results") ++ "-" ++
        (appendDataToSheet (extractData exported).1 (extractData exported).2.1
          (extractData exported).2.2.1 env.link env.now env.updatedRange sheet).checksum) ∧
      (mainUnit env source exported sheet).source.title = source.title ∧
      (mainUnit env source exported sheet).fStruct.id = "" ∧
      (mainUnit env source exported sheet).fStruct.title =
        (appendDataToSheet (extractData exported).1 (extractData exported).2.1
          (extractData exported).2.2.1 env.link env.now env.updatedRange sheet).rowID
        ++ "-" ++
        ((appendDataToSheet (extractData exported).1 (extractData exported).2.1
          (extractData exported).2.2.1 env.link env.now env.updatedRange sheet).rowID
         ++ "-" ++ (source.title ++ "_results") ++ "-" ++
         (appendDataToSheet (extractData exported).1 (extractData exported).2.1
          (extractData exported).2.2.1 env.link env.now env.updatedRange sheet).checksum)
        ++ "-" ++
        (appendDataToSheet (extractData exported).1 (extractData exported).2.1
          (extractData exported).2.2.1 env.link env.now env.updatedRange sheet).checksum := by
  intro env source exported sheet hc
  unfold mainUnit at hc ⊢
  cases herr : (extractData exported).2.2.2 <;>
    cases hap : (appendDataToSheet (extractData exported).1 (extractData exported).2.1
      (extractData exported).2.2.1 env.link env.now env.updatedRange sheet).err <;>
    simp_all [renameFile, moveFileToFolder]

/-- Closed witness for `rename_behaviour_amended` at the successful
concrete run. -/
theorem rename_behaviour_amended_witness :
    ((mainUnit envEx sourceEx scenarioCRLF []).derived.title =
      (appendDataToSheet (extractData scenarioCRLF).1 (extractData scenarioCRLF).2.1
        (extractData scenarioCRLF).2.2.1 envEx.link envEx.now envEx.updatedRange []).rowID
      ++ "-" ++ (sourceEx.title ++ "_results") ++ "-" ++
      (appendDataToSheet (extractData scenarioCRLF).1 (extractData scenarioCRLF).2.1
        (extractData scenarioCRLF).2.2.1 envEx.link envEx.now envEx.updatedRange []).checksum) ∧
    (mainUnit envEx sourceEx scenarioCRLF []).source.title = sourceEx.title ∧
    (mainUnit envEx sourceEx scenarioCRLF []).fStruct.id = "" ∧
    (mainUnit envEx sourceEx scenarioCRLF []).fStruct.title =
      (appendDataToSheet (extractData scenarioCRLF).1 (extractData scenarioCRLF).2.1
        (extractData scenarioCRLF).2.2.1 envEx.link envEx.now envEx.updatedRange []).rowID
      ++ "-" ++
      ((appendDataToSheet (extractData scenarioCRLF).1 (extractData scenarioCRLF).2.1
        (extractData scenarioCRLF).2.2.1 envEx.link envEx.now envEx.updatedRange []).rowID
       ++ "-" ++ (sourceEx.title ++ "_results") ++ "-" ++
       (appendDataToSheet (extractData scenarioCRLF).1 (extractData scenarioCRLF).2.1
        (extractData scenarioCRLF).2.2.1 envEx.link envEx.now envEx.updatedRange []).checksum)
      ++ "-" ++
      (appendDataToSheet (extractData scenarioCRLF).1 (extractData scenarioCRLF).2.1
        (extractData scenarioCRLF).2.2.1 envEx.link envEx.now envEx.updatedRange []).checksum :=
  rename_behaviour_amended envEx sourceEx scenarioCRLF [] (by decide)

end Trimark
